import Mathlib

/-!
Shallow embedding of `int8.go` from the `null` package: the nullable
`Int8` type and its JSON/text/database conversion operations.

Modelling conventions:
  * Go `int8` values are modelled as `Int`; the narrowing cast `int8(r)`
    from `int64` is `int8cast` (two's-complement truncation).
  * Go `[]byte` inputs/outputs are modelled as `String` (a `nil` slice
    for `UnmarshalText` is `Option.none`).
  * Go's standard-library `json.Unmarshal` into `interface{}` is modelled
    by a recognizer for the JSON fragment this code can observe: it only
    ever inspects the dynamic kind of the decoded value (numbers decode to
    `float64` whose numeric value is never read), so numbers carry no
    payload.  Strings are modelled in escape-free form only, and
    whitespace is handled at the top level only; inputs outside this
    fragment are treated as undecodable.
  * `convert.ConvertAssign` is external to the repository (the spec treats
    it as a black-box coercion capability), so `Scan` is parametrised by
    an arbitrary coercion function returning the new field contents and an
    optional error.
-/

set_option linter.dupNamespace false

namespace Null

/-- Errors returned by the operations, one constructor per distinct error
source in `int8.go` and the library calls it makes. -/
inductive GoErr where
  /-- `json.Unmarshal` failed to decode the bytes at all. -/
  | jsonBad (data : String)
  /-- `json.Unmarshal` into an `int64` target rejected a non-integer or
  out-of-range number. -/
  | jsonNotInt64 (data : String)
  /-- the `default` branch: `fmt.Errorf("json: cannot unmarshal %v into Go
  value of type null.Int8", reflect.TypeOf(v).Name())`. -/
  | typeErr (name : String)
  /-- `fmt.Errorf("json: %d overflows max int8 value", r)`. -/
  | overflow (r : Int)
  /-- `strconv.ParseInt`: malformed integer text (`strconv.ErrSyntax`). -/
  | parseBad (s : String)
  /-- `strconv.ParseInt`: value out of range (`strconv.ErrRange`). -/
  | parseRange (s : String)
  /-- an error produced by the external `convert.ConvertAssign`. -/
  | convertFail (msg : String)
deriving DecidableEq, Repr

/-- Dynamic kinds produced by Go's `json.Unmarshal(data, &v)` with
`v interface{}`: numbers become `float64` (only the dynamic type is ever
inspected by `int8.go`, so no numeric payload is kept), strings become
`string`, `null` becomes `nil`, and booleans, arrays and objects all land
in the `default` branch of the type switch. -/
inductive GoValue where
  | num
  | str (s : String)
  | null
  | bool (b : Bool)
  | arr
  | obj
deriving DecidableEq, Repr

/-- `reflect.TypeOf(v).Name()` for the dynamic values reaching the
`default` branch: `"bool"` for booleans; `[]interface{}` and
`map[string]interface{}` are unnamed composite types, whose reflect name
is the empty string. -/
def reflectName : GoValue → String
  | GoValue.bool _ => "bool"
  | _ => ""

/-- JSON whitespace, as accepted by `encoding/json` around a value. -/
def isWs (c : Char) : Bool :=
  c = ' ' || c = '\t' || c = '\n' || c = '\r'

/-- Characters that can occur in a JSON number token. -/
def isNumChar (c : Char) : Bool :=
  c.isDigit || c = '-' || c = '+' || c = '.' || c = 'e' || c = 'E'

/-- Digits consumed greedily from the front of a character list. -/
def takeDigits : List Char → List Char × List Char
  | [] => ([], [])
  | c :: cs =>
    if c.isDigit then
      let (d, r) := takeDigits cs
      (c :: d, r)
    else ([], c :: cs)

/-- The exponent part of the JSON number grammar, which must end the
token: empty, or `(e|E)(+|-)?digits`. -/
def jsonExpPart : List Char → Bool
  | [] => true
  | e :: rest =>
    if e = 'e' || e = 'E' then
      let rest2 :=
        match rest with
        | '+' :: r => r
        | '-' :: r => r
        | r => r
      let (d, r) := takeDigits rest2
      !d.isEmpty && r.isEmpty
    else false

/-- The fraction-then-exponent tail of the JSON number grammar. -/
def jsonFracExpPart : List Char → Bool
  | '.' :: rest =>
    let (d, r) := takeDigits rest
    !d.isEmpty && jsonExpPart r
  | cs => jsonExpPart cs

/-- A JSON number after the optional leading minus: `0` or a nonzero
digit followed by digits, then the fraction/exponent tail. -/
def jsonNumAfterSign : List Char → Bool
  | '0' :: rest => jsonFracExpPart rest
  | c :: rest => c.isDigit && jsonFracExpPart (takeDigits rest).2
  | [] => false

/-- Whether a whole token is a JSON number literal (RFC 8259 grammar:
`-?(0|[1-9][0-9]*)(\.[0-9]+)?([eE][+-]?[0-9]+)?`). -/
def isJsonNumber : List Char → Bool
  | '-' :: rest => jsonNumAfterSign rest
  | cs => jsonNumAfterSign cs

/-- Decode the body of a JSON string after the opening quote, in the
escape-free fragment of the model: any `\` or control character makes the
input undecodable here. -/
def parseStringRest : List Char → Option (String × List Char)
  | [] => none
  | c :: cs =>
    if c = '"' then some ("", cs)
    else if c = '\\' || c.toNat < 32 then none
    else
      match parseStringRest cs with
      | some (s, r) => some (String.mk (c :: s.data), r)
      | none => none

mutual

/-- Fuel-indexed recursive-descent recognizer for a top-level JSON value
in the modelled fragment (no interior whitespace, escape-free strings).
Returns the dynamic kind and the unconsumed input. -/
def parseJsonVal : Nat → List Char → Option (GoValue × List Char)
  | 0, _ => none
  | Nat.succ fuel, cs =>
    match cs with
    | 'n' :: 'u' :: 'l' :: 'l' :: rest => some (GoValue.null, rest)
    | 't' :: 'r' :: 'u' :: 'e' :: rest => some (GoValue.bool true, rest)
    | 'f' :: 'a' :: 'l' :: 's' :: 'e' :: rest => some (GoValue.bool false, rest)
    | '"' :: rest =>
      match parseStringRest rest with
      | some (s, r) => some (GoValue.str s, r)
      | none => none
    | '[' :: ']' :: rest => some (GoValue.arr, rest)
    | '[' :: rest =>
      match parseArrayItems fuel rest with
      | some r => some (GoValue.arr, r)
      | none => none
    | '{' :: '}' :: rest => some (GoValue.obj, rest)
    | '{' :: rest =>
      match parseObjectItems fuel rest with
      | some r => some (GoValue.obj, r)
      | none => none
    | cs =>
      let (tok, rest) := cs.span isNumChar
      if isJsonNumber tok then some (GoValue.num, rest) else none

/-- One or more comma-separated array elements followed by `]`. -/
def parseArrayItems : Nat → List Char → Option (List Char)
  | 0, _ => none
  | Nat.succ fuel, cs =>
    match parseJsonVal fuel cs with
    | none => none
    | some (_, r) =>
      match r with
      | ',' :: r2 => parseArrayItems fuel r2
      | ']' :: r2 => some r2
      | _ => none

/-- One or more comma-separated `"key":value` members followed by `}`. -/
def parseObjectItems : Nat → List Char → Option (List Char)
  | 0, _ => none
  | Nat.succ fuel, cs =>
    match cs with
    | '"' :: rest =>
      match parseStringRest rest with
      | none => none
      | some (_, r) =>
        match r with
        | ':' :: r2 =>
          match parseJsonVal fuel r2 with
          | none => none
          | some (_, r3) =>
            match r3 with
            | ',' :: r4 => parseObjectItems fuel r4
            | '}' :: r4 => some r4
            | _ => none
        | _ => none
    | _ => none

end

/-- Strip JSON whitespace from both ends of the input, as `encoding/json`
does around a top-level value. -/
def jsonTrim (cs : List Char) : List Char :=
  ((cs.dropWhile isWs).reverse.dropWhile isWs).reverse

/-- Model of `json.Unmarshal(data, &v)` with `v interface{}`: `some k`
when the bytes decode to a value of dynamic kind `k`, `none` when they are
undecodable (in which case `UnmarshalJSON` returns the decode error
unchanged).  Fuel `2 * length + 2` suffices for every nesting the input
length allows. -/
def jsonDecodeInterface (data : String) : Option GoValue :=
  let cs := jsonTrim data.data
  match parseJsonVal (2 * cs.length + 2) cs with
  | some (v, []) => some v
  | _ => none

/-- Numeric value of a decimal digit string. -/
def natOfDigits (l : List Char) : Nat :=
  l.foldl (fun acc c => acc * 10 + (c.toNat - '0'.toNat)) 0

/-- Whether a token is an optionally-negated nonempty run of decimal
digits (the only number shape `encoding/json` accepts for an `int64`
target: no fraction, no exponent). -/
def intLiteral : List Char → Bool
  | '-' :: rest => !rest.isEmpty && rest.all Char.isDigit
  | cs => !cs.isEmpty && cs.all Char.isDigit

/-- Signed value of an optionally-negated decimal digit string. -/
def decValue : List Char → Int
  | '-' :: rest => -(natOfDigits rest : Int)
  | cs => (natOfDigits cs : Int)

/-- Model of the second `json.Unmarshal(data, &r)` with `r int64` in the
number branch of `UnmarshalJSON`: succeeds exactly when the bytes are a
JSON integer literal fitting in `int64`; on any failure the target keeps
its zero value, as `var r int64` is not written. -/
def jsonUnmarshalInt64 (data : String) : Int × Option GoErr :=
  let cs := jsonTrim data.data
  if isJsonNumber cs then
    if intLiteral cs then
      let n := decValue cs
      if -(2 ^ 63) ≤ n ∧ n ≤ 2 ^ 63 - 1 then (n, none)
      else (0, some (GoErr.jsonNotInt64 data))
    else (0, some (GoErr.jsonNotInt64 data))
  else (0, some (GoErr.jsonBad data))

/-- Optional leading sign of a `strconv.ParseInt` input: whether the value
is negated, and the remaining characters. -/
def signSplit : List Char → Bool × List Char
  | '+' :: rest => (false, rest)
  | '-' :: rest => (true, rest)
  | cs => (false, cs)

/-- Model of `strconv.ParseInt(s, 10, bitSize)`: an optional sign followed
by a nonempty run of decimal digits, otherwise a syntax failure with value
0; on overflow of the signed `bitSize`-bit range, a range failure with the
value clamped to the nearest bound (Go returns `MaxInt`/`MinInt` of the
bit size together with `ErrRange`). -/
def strconvParseInt (s : String) (bitSize : Nat) : Int × Option GoErr :=
  let (neg, digits) := signSplit s.data
  if digits.isEmpty || !digits.all Char.isDigit then
    (0, some (GoErr.parseBad s))
  else
    let un : Nat := natOfDigits digits
    let cutoff : Nat := 2 ^ (bitSize - 1)
    if neg then
      if un > cutoff then (-(cutoff : Int), some (GoErr.parseRange s))
      else (-(un : Int), none)
    else
      if un ≥ cutoff then ((cutoff : Int) - 1, some (GoErr.parseRange s))
      else ((un : Int), none)

/-- Model of `strconv.FormatInt(int64(x), 10)`: the decimal representation
with a leading `-` for negative values, which is exactly what `toString`
on `Int` produces. -/
def strconvFormatInt (n : Int) : String :=
  toString n

/-- The Go narrowing conversion `int8(r)` from a 64-bit value:
two's-complement truncation into `[-128, 127]`. -/
def int8cast (r : Int) : Int :=
  (r + 128) % 256 - 128

/-- Modelled from the spec: the sibling definition of the JSON `null`
token's byte representation (`NullBytes`) is not part of `src/`; the spec
describes the check as comparing byte-for-byte with the JSON null
literal. -/
def NullBytes : String := "null"

/-- `Int8 is an nullable int8` — the struct with fields `Int8 int8` and
`Valid bool`. -/
structure Int8 where
  Int8 : Int
  Valid : Bool
deriving DecidableEq, Repr

/-- `NewInt8 creates a new Int8`. -/
def NewInt8 (i : Int) (valid : Bool) : Int8 :=
  { Int8 := i, Valid := valid }

/-- `Int8From creates a new Int8 that will always be valid`. -/
def Int8From (i : Int) : Int8 :=
  NewInt8 i true

/-- `Int8FromPtr creates a new Int8 that be null if i is nil`; the Go
pointer argument is modelled as an `Option`. -/
def Int8FromPtr (i : Option Int) : Int8 :=
  match i with
  | none => NewInt8 0 false
  | some v => NewInt8 v true

/-- The tail of `UnmarshalJSON` after the type switch: the overflow check
`if r > math.MaxInt8` (returning before touching the receiver), then
`i.Int8 = int8(r)` and `i.Valid = (err == nil) && (i.Int8 != 0)`, and the
switch's error is returned. -/
def unmarshalJSONFinish (i : Int8) (r : Int) (err : Option GoErr) : Int8 × Option GoErr :=
  if r > 127 then (i, some (GoErr.overflow r))
  else
    let v := int8cast r
    ({ Int8 := v, Valid := err.isNone && v != 0 }, err)

/-- `UnmarshalJSON implements json.Unmarshaler` — receiver-mutating Go
method modelled as `old state → data → (new state, error)`. -/
def UnmarshalJSON (i : Int8) (data : String) : Int8 × Option GoErr :=
  if data = NullBytes then ({ Int8 := 0, Valid := false }, none)
  else
    match jsonDecodeInterface data with
    | none => (i, some (GoErr.jsonBad data))
    | some GoValue.num =>
      let (r, err) := jsonUnmarshalInt64 data
      unmarshalJSONFinish i r err
    | some (GoValue.str x) =>
      if x.length = 0 then ({ i with Valid := false }, none)
      else
        let (r, err) := strconvParseInt x 8
        unmarshalJSONFinish i r err
    | some GoValue.null => ({ i with Valid := false }, none)
    | some other => unmarshalJSONFinish i 0 (some (GoErr.typeErr (reflectName other)))

/-- `UnmarshalText implements encoding.TextUnmarshaler`; the `text`
argument is `none` for a nil byte slice. -/
def UnmarshalText (i : Int8) (text : Option String) : Int8 × Option GoErr :=
  match text with
  | none => ({ i with Valid := false }, none)
  | some s =>
    if s.length = 0 then ({ i with Valid := false }, none)
    else
      let (res, err) := strconvParseInt s 8
      if err.isNone then ({ Int8 := int8cast res, Valid := true }, err)
      else ({ i with Valid := false }, err)

/-- `MarshalJSON implements json.Marshaler`. -/
def MarshalJSON (i : Int8) : String × Option GoErr :=
  if !i.Valid then (NullBytes, none)
  else (strconvFormatInt i.Int8, none)

/-- `MarshalText implements encoding.TextMarshaler`. -/
def MarshalText (i : Int8) : String × Option GoErr :=
  if !i.Valid then ("", none)
  else (strconvFormatInt i.Int8, none)

/-- `SetValid changes this Int8's value and also sets it to be non-null`. -/
def SetValid (i : Int8) (n : Int) : Int8 :=
  { Int8 := n, Valid := true }

/-- `Ptr returns a pointer to this Int8's value, or a nil pointer if this
Int8 is null`; the Go method receives a copy, so the result is a
snapshot. -/
def Ptr (i : Int8) : Option Int :=
  if !i.Valid then none
  else some i.Int8

/-- `IsZero returns true for invalid Int8's`. -/
def IsZero (i : Int8) : Bool :=
  !i.Valid

/-- `Scan implements the Scanner interface`.  `convert.ConvertAssign` is
external (a black-box coercion per the spec), so it is a parameter taking
the current field contents and the driver value and returning the new
field contents together with an optional error.  A `none` driver value is
Go's `nil`. -/
def Scan {α : Type} (convertAssign : Int → α → Int × Option GoErr)
    (i : Int8) (value : Option α) : Int8 × Option GoErr :=
  match value with
  | none => ({ Int8 := 0, Valid := false }, none)
  | some v =>
    let i1 : Int8 := { i with Valid := true }
    let (n, err) := convertAssign i1.Int8 v
    ({ i1 with Int8 := n }, err)

/-- `Value implements the driver Valuer interface`: the produced driver
value is Go `nil` or an `int64` (the widening `int64(i.Int8)` is the
identity on the model's `Int` contents). -/
def Value (i : Int8) : Option Int × Option GoErr :=
  if !i.Valid then (none, none)
  else (some i.Int8, none)

/-- A sample coercion that always fails, standing in for a
`convert.ConvertAssign` call that rejects its driver value after having
partially written the target field. -/
def convertAssignFailing : Int → Unit → Int × Option GoErr :=
  fun x _ => (x + 1, some (GoErr.convertFail "incompatible driver value"))



/-! ## Helper lemmas -/

/-- The truncating cast is the identity on values already in the `int8`
range. -/
theorem int8cast_id (r : Int) (h1 : -128 ≤ r) (h2 : r ≤ 127) : int8cast r = r := by
  unfold int8cast
  omega

/-- `strconv.ParseInt` with bit size 8 always reports a value in
`[-128, 127]`: in-range results are exact, and out-of-range results are
clamped to the nearest bound alongside the range error. -/
theorem strconvParseInt8_bounds (s : String) :
    -128 ≤ (strconvParseInt s 8).1 ∧ (strconvParseInt s 8).1 ≤ 127 := by
  cases h : signSplit s.data with
  | mk neg digits =>
    simp only [strconvParseInt, h]
    split
    · simp
    · split <;> split <;> norm_num <;> omega

/-- A string whose length is zero is the empty string. -/
theorem string_length_zero (s : String) (h : s.length = 0) : s = "" := by
  cases s with
  | mk data =>
    cases data with
    | nil => rfl
    | cons c cs => simp [String.length] at h

/-- `jsonDecodeInterface` sends the exact null literal to dynamic kind
null (used to discharge the first branch of `UnmarshalJSON` when a
hypothesis pins another kind). -/
theorem jsonDecodeInterface_nullBytes : jsonDecodeInterface NullBytes = some GoValue.null := by
  decide

/-! ## Claims -/

set_option maxRecDepth 100000 in
/-- C1: for every `v` in `[-128, 127]`, JSON-decoding the JSON encoding of
`Int8From v` (into a fresh zero receiver) yields `Int8From v` with no
error when `v ≠ 0`; when `v = 0`, the decoded result has `Valid = false`
(the zero/valid asymmetry quirk of the JSON decode path). -/
theorem c1_json_roundtrip (v : Int) (h1 : -128 ≤ v) (h2 : v ≤ 127) :
    (v ≠ 0 → UnmarshalJSON { Int8 := 0, Valid := false } (MarshalJSON (Int8From v)).1
      = (Int8From v, none)) ∧
    (v = 0 → (UnmarshalJSON { Int8 := 0, Valid := false } (MarshalJSON (Int8From v)).1).1.Valid
      = false) := by
  have key : ∀ k : Nat, k < 256 →
      (((k : Int) - 128) ≠ 0 →
        UnmarshalJSON { Int8 := 0, Valid := false } (MarshalJSON (Int8From ((k : Int) - 128))).1
          = (Int8From ((k : Int) - 128), none)) ∧
      (((k : Int) - 128) = 0 →
        (UnmarshalJSON { Int8 := 0, Valid := false }
          (MarshalJSON (Int8From ((k : Int) - 128))).1).1.Valid = false) := by decide
  have hk : ((v + 128).toNat : Int) - 128 = v := by omega
  have hv := key (v + 128).toNat (by omega)
  rwa [hk] at hv

/-- C1 witness: the round trip at the concrete value 7. -/
theorem c1_json_roundtrip_witness :
    UnmarshalJSON { Int8 := 0, Valid := false } (MarshalJSON (Int8From 7)).1
      = (Int8From 7, none) :=
  (c1_json_roundtrip 7 (by decide) (by decide)).1 (by decide)

/-- C2 counterexample: `NewInt8 5 false` is a state with `Valid = false`
and `Int8 = 5 ≠ 0`, and the empty-JSON-string decode branch keeps that
stale value while setting `Valid = false`. -/
theorem c2_counterexample :
    (NewInt8 5 false).Valid = false ∧ (NewInt8 5 false).Int8 = 5 ∧ (5 : Int) ≠ 0 ∧
    (UnmarshalJSON (NewInt8 5 false) "\"\"").1 = { Int8 := 5, Valid := false } := by
  decide

/-- C2 amended: the zeroing invariant does not hold for every operation
that sets `valid` to false.  The JSON null-literal decode branch and
`Scan` of a nil driver value do set `value = 0` together with
`Valid = false`, but `NewInt8` stores its arguments unchanged even when
`valid` is false (so states with `Valid = false` and a nonzero value are
reachable by construction), and the empty-JSON-string decode branch and
`UnmarshalText` on nil input set `Valid = false` while leaving the value
field untouched. -/
theorem c2_invalid_zeroing_amended :
    (∀ i : Int8, UnmarshalJSON i NullBytes = ({ Int8 := 0, Valid := false }, none)) ∧
    (∀ (α : Type) (conv : Int → α → Int × Option GoErr) (i : Int8),
      Scan conv i none = ({ Int8 := 0, Valid := false }, none)) ∧
    (∀ (v : Int) (b : Bool), NewInt8 v b = { Int8 := v, Valid := b }) ∧
    (∀ i : Int8, (UnmarshalJSON i "\"\"").1 = { i with Valid := false }) ∧
    (∀ i : Int8, UnmarshalText i none = ({ i with Valid := false }, none)) := by
  refine ⟨?_, fun α conv i => rfl, fun v b => rfl, ?_, fun i => rfl⟩
  · intro i
    simp [UnmarshalJSON]
  · intro i
    have h1 : ("\"\"" : String) ≠ NullBytes := by decide
    have h2 : jsonDecodeInterface "\"\"" = some (GoValue.str "") := by decide
    simp [UnmarshalJSON, h1, h2]

/-- C3: whenever the JSON decode reaches the number or string branch and
the candidate integer `r` exceeds 127, `UnmarshalJSON` returns the
overflow error and leaves the receiver untouched (the overflow check runs
before the truncating assignment). -/
theorem c3_overflow_pre_truncation (i : Int8) (data : String) (r : Int)
    (hbranch : (jsonDecodeInterface data = some GoValue.num ∧ r = (jsonUnmarshalInt64 data).1) ∨
      (∃ s, jsonDecodeInterface data = some (GoValue.str s) ∧ s.length ≠ 0 ∧
        r = (strconvParseInt s 8).1))
    (hr : r > 127) :
    UnmarshalJSON i data = (i, some (GoErr.overflow r)) := by
  rcases hbranch with ⟨hk, hrv⟩ | ⟨s, hk, hs, hrv⟩
  · have hne : data ≠ NullBytes := by
      intro hd
      rw [hd, jsonDecodeInterface_nullBytes] at hk
      simp at hk
    rcases hu : jsonUnmarshalInt64 data with ⟨r0, err0⟩
    rw [hu] at hrv
    simp at hrv
    subst hrv
    simp [UnmarshalJSON, hne, hk, hu, unmarshalJSONFinish, hr]
  · exfalso
    have hle := (strconvParseInt8_bounds s).2
    rw [← hrv] at hle
    omega

/-- C3 witness: decoding the JSON number `128` into the receiver
`NewInt8 3 true` fails with the overflow error and leaves the receiver
unchanged. -/
theorem c3_overflow_pre_truncation_witness :
    UnmarshalJSON (NewInt8 3 true) "128" = (NewInt8 3 true, some (GoErr.overflow 128)) :=
  c3_overflow_pre_truncation (NewInt8 3 true) "128" 128
    (Or.inl ⟨by decide, by decide⟩) (by decide)

/-- C4 counterexample: the bare JSON number `-256` is below the `int8`
minimum and representable in `int64`, yet decoding it stores 0 with
`Valid = false` (not `Valid = true` as the claim states), and no error. -/
theorem c4_counterexample :
    UnmarshalJSON (NewInt8 0 false) "-256" = ({ Int8 := 0, Valid := false }, none) ∧
    (UnmarshalJSON (NewInt8 0 false) "-256").1.Valid ≠ true := by
  decide

/-- C4 amended: for every JSON input that is a bare number below the
`int8` minimum but representable in `int64`, `UnmarshalJSON` returns no
error and stores the narrowing truncation of the 64-bit value, with
`Valid = true` exactly when that truncation is nonzero (for `-129` the
stored value is 127 and `Valid = true`; for exact multiples of 256 such as
`-256` the truncation is 0 and `Valid = false`): the overflow check is
one-sided and never rejects values below -128 on the number branch. -/
theorem c4_below_min_truncates (i : Int8) (data : String) (r : Int)
    (h1 : jsonDecodeInterface data = some GoValue.num)
    (h2 : jsonUnmarshalInt64 data = (r, none))
    (h3 : r < -128) :
    UnmarshalJSON i data = ({ Int8 := int8cast r, Valid := int8cast r != 0 }, none) := by
  have hne : data ≠ NullBytes := by
    intro hd
    rw [hd, jsonDecodeInterface_nullBytes] at h1
    simp at h1
  have hr : ¬ (r > 127) := by omega
  simp [UnmarshalJSON, hne, h1, h2, unmarshalJSONFinish, hr]

/-- C4 witness: decoding `-129` stores `int8(-129) = 127` with
`Valid = true` and no error. -/
theorem c4_below_min_truncates_witness :
    UnmarshalJSON (NewInt8 0 false) "-129" = ({ Int8 := 127, Valid := true }, none) := by
  have h := c4_below_min_truncates (NewInt8 0 false) "-129" (-129)
    (by decide) (by decide) (by decide)
  exact h.trans (by decide)

/-- C5: decoding the exact JSON null literal sets `Valid = false` and
`Int8 = 0` with no error, and decoding the empty JSON string sets
`Valid = false` with no error — neither absent encoding is an error. -/
theorem c5_null_and_empty_not_errors (i : Int8) :
    UnmarshalJSON i NullBytes = ({ Int8 := 0, Valid := false }, none) ∧
    UnmarshalJSON i "\"\"" = ({ i with Valid := false }, none) := by
  constructor
  · simp [UnmarshalJSON]
  · have h1 : ("\"\"" : String) ≠ NullBytes := by decide
    have h2 : jsonDecodeInterface "\"\"" = some (GoValue.str "") := by decide
    simp [UnmarshalJSON, h1, h2]

/-- C6: every JSON input whose dynamic decoded kind is a boolean, array
or object makes `UnmarshalJSON` return the decode error built from the
unsupported kind's reflect name (the receiver is overwritten with the
zero invalid state on the way out). -/
theorem c6_unsupported_kind (i : Int8) (data : String) (v : GoValue)
    (h1 : jsonDecodeInterface data = some v)
    (h2 : v = GoValue.bool true ∨ v = GoValue.bool false ∨ v = GoValue.arr ∨ v = GoValue.obj) :
    UnmarshalJSON i data
      = ({ Int8 := 0, Valid := false }, some (GoErr.typeErr (reflectName v))) := by
  have hne : data ≠ NullBytes := by
    intro hd
    rw [hd, jsonDecodeInterface_nullBytes] at h1
    rcases h2 with h | h | h | h <;> subst h <;> simp at h1
  rcases h2 with h | h | h | h <;> subst h <;>
    simp [UnmarshalJSON, hne, h1, unmarshalJSONFinish, reflectName, int8cast]

/-- C6 witness: decoding the JSON literal `true` fails with the
decode-kind error naming `bool`. -/
theorem c6_unsupported_kind_witness :
    UnmarshalJSON (NewInt8 0 false) "true"
      = ({ Int8 := 0, Valid := false }, some (GoErr.typeErr "bool")) :=
  c6_unsupported_kind (NewInt8 0 false) "true" (GoValue.bool true) (by decide) (Or.inl rfl)

/-- C7: `UnmarshalText` on nil or empty input sets `Valid = false` with no
error and leaves the value untouched; on non-empty input parsing as a
base-10 signed integer fitting in 8 bits it stores the parsed integer with
`Valid = true` and no error; on any parse failure it sets `Valid = false`
and returns the parse error. -/
theorem c7_unmarshal_text (i : Int8) :
    UnmarshalText i none = ({ i with Valid := false }, none) ∧
    UnmarshalText i (some "") = ({ i with Valid := false }, none) ∧
    (∀ s r, s ≠ "" → strconvParseInt s 8 = (r, none) →
      UnmarshalText i (some s) = ({ Int8 := r, Valid := true }, none)) ∧
    (∀ s e, s ≠ "" → (strconvParseInt s 8).2 = some e →
      UnmarshalText i (some s) = ({ i with Valid := false }, some e)) := by
  refine ⟨rfl, by simp [UnmarshalText], ?_, ?_⟩
  · intro s r hs hp
    have hb := strconvParseInt8_bounds s
    rw [hp] at hb
    have hlen : s.length ≠ 0 := fun h0 => hs (string_length_zero s h0)
    simp [UnmarshalText, hlen, hp, int8cast_id r hb.1 hb.2]
  · intro s e hs he
    have hlen : s.length ≠ 0 := fun h0 => hs (string_length_zero s h0)
    rcases hp : strconvParseInt s 8 with ⟨r0, err0⟩
    rw [hp] at he
    simp at he
    subst he
    simp [UnmarshalText, hlen, hp]

/-- C7 witness: `"42"` parses to a valid 42; `"abc"` fails, invalidating
the receiver and returning the parse error. -/
theorem c7_unmarshal_text_witness :
    UnmarshalText (NewInt8 1 true) (some "42") = ({ Int8 := 42, Valid := true }, none) ∧
    UnmarshalText (NewInt8 1 true) (some "abc")
      = ({ Int8 := 1, Valid := false }, some (GoErr.parseBad "abc")) :=
  ⟨(c7_unmarshal_text (NewInt8 1 true)).2.2.1 "42" 42 (by decide) (by decide),
   (c7_unmarshal_text (NewInt8 1 true)).2.2.2 "abc" (GoErr.parseBad "abc")
     (by decide) (by decide)⟩

/-- C8: for every state, `MarshalJSON` emits exactly the JSON null literal
when invalid (whatever the stored value) and the unquoted decimal
representation of the value when valid, and `MarshalText` emits the empty
byte sequence when invalid and the decimal representation when valid;
neither ever returns an error. -/
theorem c8_marshal_total (v : Int) (b : Bool) :
    MarshalJSON (NewInt8 v b) = ((if b then strconvFormatInt v else NullBytes), none) ∧
    MarshalText (NewInt8 v b) = ((if b then strconvFormatInt v else ""), none) := by
  cases b <;> simp [MarshalJSON, MarshalText, NewInt8]

/-- C9: `Scan` of a nil driver value yields the zero invalid state with no
error; `Value` yields a nil driver value with no error when invalid, and
the stored value widened to an `int64` with no error when valid. -/
theorem c9_scan_nil_and_value (α : Type) (conv : Int → α → Int × Option GoErr) (i : Int8) :
    Scan conv i none = ({ Int8 := 0, Valid := false }, none) ∧
    (i.Valid = false → Value i = (none, none)) ∧
    (i.Valid = true → Value i = (some i.Int8, none)) := by
  refine ⟨rfl, ?_, ?_⟩ <;> intro h <;> simp [Value, h]

/-- C9 witness: `Value` on an invalid instance and on `Int8From 9`. -/
theorem c9_scan_nil_and_value_witness :
    Value (NewInt8 0 false) = (none, none) ∧ Value (Int8From 9) = (some 9, none) :=
  ⟨(c9_scan_nil_and_value Unit convertAssignFailing (NewInt8 0 false)).2.1 rfl,
   (c9_scan_nil_and_value Unit convertAssignFailing (Int8From 9)).2.2 rfl⟩

/-- C10: `Scan` with a non-nil driver value marks the receiver valid
before delegating to the external coercion, so when the coercion fails the
error is returned with `Valid` still true (and the field holding whatever
the coercion left in it). -/
theorem c10_scan_error_keeps_valid (α : Type) (conv : Int → α → Int × Option GoErr)
    (i : Int8) (v : α) (n : Int) (e : GoErr)
    (h : conv i.Int8 v = (n, some e)) :
    Scan conv i (some v) = ({ Int8 := n, Valid := true }, some e) ∧
    (Scan conv i (some v)).1.Valid = true := by
  have hs : Scan conv i (some v) = ({ Int8 := n, Valid := true }, some e) := by
    simp [Scan, h]
  exact ⟨hs, by rw [hs]⟩

/-- C10 witness: a coercion that always fails leaves the receiver valid
with the partially-written field, and its error is propagated. -/
theorem c10_scan_error_keeps_valid_witness :
    Scan convertAssignFailing (NewInt8 2 true) (some ())
      = ({ Int8 := 3, Valid := true }, some (GoErr.convertFail "incompatible driver value")) :=
  (c10_scan_error_keeps_valid Unit convertAssignFailing (NewInt8 2 true) () 3
    (GoErr.convertFail "incompatible driver value") (by decide)).1

end Null
